import Mathlib

/-!
# AdmissionFormPopup: validation, dependent dropdown and submit

A shallow embedding of `src/components/ui/AdmissionFormPopup.jsx`.

* JavaScript strings are sequences of UTF-16 code units; `JSString` is a list of
  code units, so that `.length`, `.slice`, `.trim` and the regular expressions
  (none of which carries the `u` flag) work on the same units as in the source.
* The three regular expressions of the component are values of a small regular
  expression syntax, run by a derivative matcher (`Regex.test`).
* The React state of the component together with the `submittedPhoneNumbers`
  entry of `localStorage` is a record; the handlers are functions on it which
  also return the list of externally visible effects, in order.
-/

namespace AdmissionForm

set_option linter.constructorNameAsVariable false

/-! ## Strings -/

/-- A UTF-16 code unit. -/
abbrev CodeUnit := Nat

/-- A JavaScript string: its sequence of UTF-16 code units. -/
abbrev JSString := List CodeUnit

/-- The UTF-16 encoding of one Unicode scalar value. -/
def utf16Char (c : Char) : List CodeUnit :=
  if c.toNat < 65536 then [c.toNat]
  else [55296 + (c.toNat - 65536) / 1024, 56320 + (c.toNat - 65536) % 1024]

/-- The JavaScript string denoted by a string literal. -/
def utf16 (s : String) : JSString :=
  s.toList.flatMap utf16Char

/-- The code units matched by `\s`, which are also the ones removed by
`String.prototype.trim`: ECMAScript WhiteSpace and LineTerminator. -/
def isWhiteSpace (c : CodeUnit) : Bool :=
  c == 9 || c == 10 || c == 11 || c == 12 || c == 13 || c == 32 || c == 160 ||
  c == 5760 || (8192 ≤ c && c ≤ 8202) || c == 8232 || c == 8233 || c == 8239 ||
  c == 8287 || c == 12288 || c == 65279

/-- The class `[0-9]`. -/
def isDigit (c : CodeUnit) : Bool := 48 ≤ c && c ≤ 57

/-- The class `[6-9]`. -/
def isSixToNine (c : CodeUnit) : Bool := 54 ≤ c && c ≤ 57

/-- The class `[a-zA-Z\s]`. -/
def isLetterOrSpace (c : CodeUnit) : Bool :=
  (97 ≤ c && c ≤ 122) || (65 ≤ c && c ≤ 90) || isWhiteSpace c

/-- The class `[^\s@]`. -/
def isNotSpaceNorAt (c : CodeUnit) : Bool := !(isWhiteSpace c || c == 64)

/-- The code unit of `@`. -/
def atSign : CodeUnit := 64

/-- The code unit of `.`. -/
def dot : CodeUnit := 46

/-- The method `String.prototype.trim`: strips white space from both ends. -/
def trim (s : JSString) : JSString :=
  ((s.dropWhile isWhiteSpace).reverse.dropWhile isWhiteSpace).reverse

/-- The call `s.replace(/C/g, "")` for a one-character class `C`: every code unit in the
class is deleted, the others stay in order. -/
def removeAll (cls : CodeUnit → Bool) (s : JSString) : JSString :=
  s.filter (fun c => !cls c)

/-- The call `s.slice(0, n)`. -/
def slice0 (n : Nat) (s : JSString) : JSString := s.take n

/-! ## Regular expressions -/

/-- Syntax of the regular expressions used by the component (anchored at both
ends by `^` and `$`, so `test` is a whole-string match). -/
inductive Regex where
  | never : Regex
  | eps : Regex
  | cls (p : CodeUnit → Bool) : Regex
  | seq (a b : Regex) : Regex
  | alt (a b : Regex) : Regex
  | star (a : Regex) : Regex

namespace Regex

/-- The literal character `c`. -/
def chr (c : CodeUnit) : Regex := cls (fun d => d == c)

/-- The quantifier `+`. -/
def plus (a : Regex) : Regex := seq a (star a)

/-- The quantifier `{n}`. -/
def rep : Nat → Regex → Regex
  | 0, _ => eps
  | n + 1, a => seq a (rep n a)

/-- Whether the expression matches the empty string. -/
def nullable : Regex → Bool
  | never => false
  | eps => true
  | cls _ => false
  | seq a b => nullable a && nullable b
  | alt a b => nullable a || nullable b
  | star _ => true

/-- Brzozowski derivative: what remains to be matched after reading `c`. -/
def deriv : Regex → CodeUnit → Regex
  | never, _ => never
  | eps, _ => never
  | cls p, c => if p c then eps else never
  | seq a b, c =>
      if nullable a then alt (seq (deriv a c) b) (deriv b c) else seq (deriv a c) b
  | alt a b, c => alt (deriv a c) (deriv b c)
  | star a, c => seq (deriv a c) (star a)

/-- The call `/^r$/.test(s)`: whether the whole string matches `r`. -/
def test (r : Regex) : JSString → Bool
  | [] => nullable r
  | c :: s => test (deriv r c) s

/-- The strings denoted by a regular expression. -/
def Matches : Regex → JSString → Prop
  | never, _ => False
  | eps, s => s = []
  | cls p, s => ∃ c, s = [c] ∧ p c = true
  | seq a b, s => ∃ u v, s = u ++ v ∧ Matches a u ∧ Matches b v
  | alt a b, s => Matches a s ∨ Matches b s
  | star a, s => ∃ L : List JSString, s = L.flatten ∧ ∀ u ∈ L, Matches a u

end Regex

/-! ## The field table -/

/-- One entry of `formFields` (the parts that `validateField` reads). -/
structure Field where
  name : JSString
  label : JSString
  required : Bool
  validation : JSString → Bool
  errorMessage : JSString

/-- The expression `/^[^\s@]+@[^\s@]+\.[^\s@]+$/`. -/
def emailRegex : Regex :=
  .seq (.plus (.cls isNotSpaceNorAt))
    (.seq (.chr atSign)
      (.seq (.plus (.cls isNotSpaceNorAt))
        (.seq (.chr dot) (.plus (.cls isNotSpaceNorAt)))))

/-- The expression `/^[6-9][0-9]{9}$/`. -/
def phoneRegex : Regex :=
  .seq (.cls isSixToNine) (.rep 9 (.cls isDigit))

/-- The constant `formFields`. -/
def formFields : List Field :=
  [ { name := utf16 "name", label := utf16 "Name", required := true,
      validation := fun value => decide ((trim value).length ≥ 2),
      errorMessage := utf16 "Name must be at least 2 characters long" },
    { name := utf16 "email", label := utf16 "Email", required := true,
      validation := fun value => emailRegex.test value,
      errorMessage := utf16 "Please enter a valid email address" },
    { name := utf16 "phone", label := utf16 "Phone", required := true,
      validation := fun value => phoneRegex.test value,
      errorMessage :=
        utf16 "Please enter a valid 10-digit phone number starting with 6, 7, 8, or 9" },
    { name := utf16 "state", label := utf16 "State", required := true,
      validation := fun value => value != [],
      errorMessage := utf16 "Please select a state" },
    { name := utf16 "city", label := utf16 "City", required := true,
      validation := fun value => value != [],
      errorMessage := utf16 "Please select a city" } ]

/-- The function `validateField`: the error message for a value of the named
field, the empty string when there is none. A string is falsy exactly when it is
empty; every entry of `formFields` has a `validation`. -/
def validateField (name : JSString) (value : JSString) : JSString :=
  match formFields.find? (fun f => f.name == name) with
  | none => []
  | some field =>
    if field.required && value.isEmpty then field.label ++ utf16 " is required"
    else if !value.isEmpty && !field.validation value then field.errorMessage
    else []

/-! ## Component state -/

/-- The `name` attribute of an element wired to `handleChange`: these are the
inputs and selects rendered from `formFields`. -/
inductive FieldName where
  | name | email | phone | state | city
  deriving DecidableEq

/-- The property key of a form input. -/
def FieldName.key : FieldName → JSString
  | .name => utf16 "name"
  | .email => utf16 "email"
  | .phone => utf16 "phone"
  | .state => utf16 "state"
  | .city => utf16 "city"

/-- The record held in `formData`. `coursesid` carries the `courseId` prop, whose
type the component never inspects; `page` is present only on non-MCA forms. -/
structure FormData (κ : Type) where
  name : JSString
  email : JSString
  phone : JSString
  coursesid : κ
  state : JSString
  city : JSString
  page : Option JSString
  deriving DecidableEq

/-- The object spread `{ ...prev, [name]: value }` for the name of a form input. -/
def FormData.set {κ : Type} (d : FormData κ) : FieldName → JSString → FormData κ
  | .name, v => { d with name := v }
  | .email, v => { d with email := v }
  | .phone, v => { d with phone := v }
  | .state, v => { d with state := v }
  | .city, v => { d with city := v }

/-- The lookup `formData[key]` as `validateField` sees it. The five input keys
always hold strings; any other key reads as the empty string, which
`validateField` treats like `undefined` (both are falsy). -/
def FormData.prop {κ : Type} (d : FormData κ) (key : JSString) : JSString :=
  if key == utf16 "name" then d.name
  else if key == utf16 "email" then d.email
  else if key == utf16 "phone" then d.phone
  else if key == utf16 "state" then d.state
  else if key == utf16 "city" then d.city
  else []

/-- A plain object with string values, as an ordered list of entries. -/
abbrev JSObject := List (JSString × JSString)

/-- The assignment `obj[key] = value` (also the spread `{ ...obj, [key]: value }`):
an existing entry is overwritten in place, a new one is added at the end. -/
def objSet : JSObject → JSString → JSString → JSObject
  | [], k, v => [(k, v)]
  | (k0, v0) :: rest, k, v =>
      if k0 == k then (k0, v) :: rest else (k0, v0) :: objSet rest k v

/-- The read `obj[key]`, `none` standing for `undefined`. -/
def objGet (o : JSObject) (k : JSString) : Option JSString :=
  (o.find? (fun e => e.1 == k)).map Prod.snd

/-- The `utmParams` prop. -/
structure UtmParams where
  campaign : Option JSString
  utm_campaign : Option JSString
  utm_medium : Option JSString
  utm_term : Option JSString
  utm_content : Option JSString
  deriving DecidableEq

/-- The props of the component that the handlers read. `onSuccess` records
whether a callback was passed. -/
structure Props (κ : Type) where
  utmParams : Option UtmParams
  courseId : κ
  pageName : JSString
  endpoint : JSString
  onSuccess : Bool

/-- The state the handlers read and write: the four `useState` cells and the
`submittedPhoneNumbers` item of `localStorage` (`none` when the item is absent). -/
structure State (κ : Type) where
  formData : FormData κ
  errors : JSObject
  isSubmitting : Bool
  cities : List JSString
  storage : Option (List JSString)
  deriving DecidableEq

/-- The JSON body posted to the sheet endpoint: the sanitized record spread into
an object together with the campaign fields. -/
structure SheetBody (κ : Type) where
  record : FormData κ
  campaign : Option JSString
  utm_source : JSString
  utm_medium : Option JSString
  utm_term : Option JSString
  utm_content : Option JSString
  deriving DecidableEq

/-- What a handler does to the outside world, in order of occurrence. -/
inductive Effect (κ : Type) where
  | preventDefault
  | toastError (msg : JSString)
  | toastWarning (msg : JSString)
  | toastSuccess (msg : JSString)
  | submitAdmissionQuery (formData : FormData κ) (utmParams : Option UtmParams)
  | fetchPost (endpoint : JSString) (body : SheetBody κ)
  | onSuccess
  | redirect (href : JSString)
  | consoleError
  deriving DecidableEq

/-- How the awaited call `submitAdmissionQuery(...)` ends: it throws, or returns
an object whose `success` is truthy or falsy. -/
inductive CrmOutcome where
  | throws
  | returns (success : Bool)
  deriving DecidableEq

/-- How the sheet request ends: `fetch` or `sheetsResponse.json()` throws, or the
parsed object is returned, with the truthiness of `success` and `isDuplicate`. -/
inductive SheetOutcome where
  | throws
  | returns (success isDuplicate : Bool)
  deriving DecidableEq

/-- The two remote collaborators, as the answers they give to a request. -/
structure Remote (κ : Type) where
  submitAdmissionQuery : FormData κ → Option UtmParams → CrmOutcome
  fetch : JSString → SheetBody κ → SheetOutcome

/-- The operator `a || b` on possibly undefined strings. -/
def jsOr (a b : Option JSString) : Option JSString :=
  match a with
  | some (c :: s) => some (c :: s)
  | _ => b

/-- The constant `initialFormData`. -/
def initialFormData {κ : Type} (props : Props κ) : FormData κ :=
  { name := [], email := [], phone := [], coursesid := props.courseId,
    state := [], city := [],
    page := if props.pageName != utf16 "mca" then some props.pageName else none }

/-- The value stored by `handleChange` for an input: names keep letters and
white space, phones keep their first ten digits, the rest is stored as typed. -/
def sanitizeInput (name : FieldName) (value : JSString) : JSString :=
  if name = .name then removeAll (fun c => !isLetterOrSpace c) value
  else if name = .phone then
    let value := removeAll (fun c => !isDigit c) value
    if value.length > 10 then slice0 10 value else value
  else value

/-- The handler `handleChange`, for the event target `name` with `value`;
`getCitiesForState` is the lookup imported from `@/lib/stateData`. -/
def handleChange {κ : Type} (getCitiesForState : JSString → List JSString)
    (name : FieldName) (value : JSString) (st : State κ) : State κ :=
  let value := sanitizeInput name value
  let st := { st with formData := st.formData.set name value }
  let st := { st with errors := objSet st.errors name.key (validateField name.key value) }
  if name = .state then
    let st := { st with formData := { st.formData with city := [] } }
    { st with cities := getCitiesForState value }
  else st

/-- The loop of `handleSubmit` that fills `newErrors`. -/
def collectErrors {κ : Type} (d : FormData κ) : JSObject :=
  formFields.foldl
    (fun newErrors field =>
      let error := validateField field.name (d.prop field.name)
      if error.isEmpty then newErrors else objSet newErrors field.name error)
    []

/-- The object `sanitizedFormData`. -/
def sanitizedFormData {κ : Type} (props : Props κ) (d : FormData κ) : FormData κ :=
  { d with
    city := removeAll isWhiteSpace d.city,
    page := if props.pageName != utf16 "mca" then some props.pageName else d.page }

/-- The body of the POST to the sheet endpoint. -/
def sheetBody {κ : Type} (props : Props κ) (d : FormData κ) : SheetBody κ :=
  { record := sanitizedFormData props d,
    campaign := jsOr (props.utmParams.bind (·.campaign)) (props.utmParams.bind (·.utm_campaign)),
    utm_source := utf16 "Stealth",
    utm_medium := props.utmParams.bind (·.utm_medium),
    utm_term := props.utmParams.bind (·.utm_term),
    utm_content := props.utmParams.bind (·.utm_content) }

/-- The read `JSON.parse(localStorage.getItem("submittedPhoneNumbers")) || []`. -/
def readSubmitted {κ : Type} (st : State κ) : List JSString :=
  st.storage.getD []

/-- The guarded `push` and `setItem` that record the submitted phone. -/
def rememberPhone {κ : Type} (submittedPhoneNumbers : List JSString) (st : State κ) :
    State κ :=
  if !submittedPhoneNumbers.contains st.formData.phone then
    { st with storage := some (submittedPhoneNumbers ++ [st.formData.phone]) }
  else st

/-- The `catch` block followed by the `finally` block. -/
def caught {κ : Type} (st : State κ) (sofar : List (Effect κ)) :
    State κ × List (Effect κ) :=
  ({ st with isSubmitting := false },
    sofar ++ [.toastError (utf16 "An unexpected error occurred. Please try again."),
      .consoleError])

/-- The handler `handleSubmit`: the state when it has finished and its effects. -/
def handleSubmit {κ : Type} (props : Props κ) (remote : Remote κ) (st : State κ) :
    State κ × List (Effect κ) :=
  let formData := st.formData
  let newErrors := collectErrors formData
  if newErrors.length > 0 then
    ({ st with errors := newErrors },
      [.preventDefault, .toastError (utf16 "Please fill in all required fields correctly.")])
  else
    let submittedPhoneNumbers := readSubmitted st
    if submittedPhoneNumbers.contains formData.phone then
      (st, [.preventDefault, .toastWarning (utf16
        "This phone number has already been used to submit a query during this session.")])
    else
      let st := { st with isSubmitting := true }
      let record := sanitizedFormData props formData
      let calls : List (Effect κ) :=
        [.preventDefault, .submitAdmissionQuery record props.utmParams]
      match remote.submitAdmissionQuery record props.utmParams with
      | .throws => caught st calls
      | .returns crmSuccess =>
        let calls := calls ++ [.fetchPost props.endpoint (sheetBody props formData)]
        match remote.fetch props.endpoint (sheetBody props formData) with
        | .throws => caught st calls
        | .returns sheetsSuccess isDuplicate =>
          if crmSuccess || sheetsSuccess then
            let st' := rememberPhone submittedPhoneNumbers st
            ({ st' with formData := initialFormData props, errors := [], isSubmitting := false },
              calls ++ [.toastSuccess (utf16 "Form submitted successfully!"),
                if props.onSuccess then .onSuccess else .redirect (utf16 "/thankyou.html")])
          else if isDuplicate then
            let st' := rememberPhone submittedPhoneNumbers st
            ({ st' with isSubmitting := false },
              calls ++ [.toastError (utf16
                "This phone number has already been used to submit an inquiry.")])
          else
            ({ st with isSubmitting := false },
              calls ++ [.toastError (utf16 "Failed to submit form. Please try again.")])

/-! ## Predicates in the words of the specification -/

/-- The first code unit is one of the digits 6, 7, 8, 9. -/
def StartsWithSixToNine : JSString → Prop
  | [] => False
  | c :: _ => c = 54 ∨ c = 55 ∨ c = 56 ∨ c = 57

instance : DecidablePred StartsWithSixToNine := fun v =>
  match v with
  | [] => isFalse (fun h => h)
  | c :: _ => inferInstanceAs (Decidable (c = 54 ∨ c = 55 ∨ c = 56 ∨ c = 57))

/-- A valid 10-digit phone number starting with 6, 7, 8, or 9: exactly ten ASCII
digits, the first of which is 6, 7, 8 or 9. -/
def ValidPhone (v : JSString) : Prop :=
  v.length = 10 ∧ (∀ c ∈ v, 48 ≤ c ∧ c ≤ 57) ∧ StartsWithSixToNine v

instance : DecidablePred ValidPhone := fun v =>
  inferInstanceAs (Decidable (v.length = 10 ∧ (∀ c ∈ v, 48 ≤ c ∧ c ≤ 57) ∧ StartsWithSixToNine v))

/-- The ASCII digits of a string, in their original order. -/
def digitsOf (v : JSString) : JSString :=
  v.filter (fun c => decide (48 ≤ c ∧ c ≤ 57))

/-- The part of a string before its first `@` (all of it when there is none). -/
def beforeAt (v : JSString) : JSString :=
  v.takeWhile (fun c => c != atSign)

/-- The part of a string after its first `@` (empty when there is none). -/
def afterAt (v : JSString) : JSString :=
  (v.dropWhile (fun c => c != atSign)).drop 1

/-- The shape of an accepted email: no white space, exactly one `@`, something
before the `@`, and after it a `.` that is neither the first nor the last
character of that part. -/
def EmailShape (v : JSString) : Prop :=
  (∀ c ∈ v, isWhiteSpace c = false) ∧ v.count atSign = 1 ∧ beforeAt v ≠ [] ∧
  dot ∈ ((afterAt v).drop 1).dropLast

instance : DecidablePred EmailShape := fun v =>
  inferInstanceAs (Decidable ((∀ c ∈ v, isWhiteSpace c = false) ∧ v.count atSign = 1 ∧
    beforeAt v ≠ [] ∧ dot ∈ ((afterAt v).drop 1).dropLast))

/-- A non-empty run of code units that are neither white space nor `@`. -/
def EmailPart (u : JSString) : Prop :=
  u ≠ [] ∧ ∀ c ∈ u, isNotSpaceNorAt c = true

/-- All five fields of a record pass `validateField`. -/
def FormValid {κ : Type} (d : FormData κ) : Prop :=
  validateField (utf16 "name") d.name = [] ∧
  validateField (utf16 "email") d.email = [] ∧
  validateField (utf16 "phone") d.phone = [] ∧
  validateField (utf16 "state") d.state = [] ∧
  validateField (utf16 "city") d.city = []

instance {κ : Type} (d : FormData κ) : Decidable (FormValid d) :=
  inferInstanceAs (Decidable (validateField (utf16 "name") d.name = [] ∧
    validateField (utf16 "email") d.email = [] ∧
    validateField (utf16 "phone") d.phone = [] ∧
    validateField (utf16 "state") d.state = [] ∧
    validateField (utf16 "city") d.city = []))

/-- The entry of the error map for one field: none when its message is empty. -/
def entryOf (key message : JSString) : JSObject :=
  if message = [] then [] else [(key, message)]

/-- What the error map holds for a field with the given message. -/
def failing (message : JSString) : Option JSString :=
  if message = [] then none else some message

/-- The effect is a call to the CRM or a POST to the sheet endpoint. -/
def isRemoteCall {κ : Type} : Effect κ → Bool
  | .submitAdmissionQuery _ _ => true
  | .fetchPost _ _ => true
  | _ => false

/-- Both remote calls return and one of `crmResult.success`, `sheetsData.success`,
`sheetsData.isDuplicate` is truthy. -/
def phoneRecorded {κ : Type} (props : Props κ) (remote : Remote κ) (d : FormData κ) : Bool :=
  match remote.submitAdmissionQuery (sanitizedFormData props d) props.utmParams with
  | .throws => false
  | .returns crmSuccess =>
    match remote.fetch props.endpoint (sheetBody props d) with
    | .throws => false
    | .returns sheetsSuccess isDuplicate => crmSuccess || sheetsSuccess || isDuplicate

/-! ## Sample inputs -/

/-- A filled-in record that passes validation; the city has a space in it. -/
def sampleForm : FormData Nat :=
  { name := utf16 "Asha", email := utf16 "a@b.c", phone := utf16 "9876543210",
    coursesid := 7, state := utf16 "Goa", city := utf16 "Vasco da Gama", page := none }

/-- Props of a non-MCA page without an `onSuccess` callback. -/
def sampleProps : Props Nat :=
  { utmParams := none, courseId := 7, pageName := utf16 "mba",
    endpoint := utf16 "/sheet", onSuccess := false }

/-- A state holding `sampleForm`, with one other phone already stored. -/
def sampleState : State Nat :=
  { formData := sampleForm, errors := [], isSubmitting := false, cities := [],
    storage := some [utf16 "9000000001"] }

/-- The state of `sampleState` after its own phone has been stored. -/
def sampleStateSubmitted : State Nat :=
  { sampleState with storage := some [utf16 "9000000001", utf16 "9876543210"] }

/-- A state whose record is still empty. -/
def sampleStateEmpty : State Nat :=
  { sampleState with formData := initialFormData sampleProps }

/-- Remote collaborators that both report success. -/
def sampleRemote : Remote Nat :=
  { submitAdmissionQuery := fun _ _ => .returns true,
    fetch := fun _ _ => .returns true false }

/-- Remote collaborators of which the CRM throws. -/
def sampleRemoteDown : Remote Nat :=
  { submitAdmissionQuery := fun _ _ => .throws,
    fetch := fun _ _ => .returns true false }

/-! ## Correctness of the matcher -/

namespace Regex

theorem nullable_iff (r : Regex) : r.nullable = true ↔ r.Matches [] := by
  induction r with
  | never => simp [nullable, Matches]
  | eps => simp [nullable, Matches]
  | cls p => simp [nullable, Matches]
  | seq a b iha ihb =>
    simp only [nullable, Matches, Bool.and_eq_true, iha, ihb]
    constructor
    · rintro ⟨ha, hb⟩
      exact ⟨[], [], rfl, ha, hb⟩
    · rintro ⟨u, v, huv, ha, hb⟩
      have h := List.append_eq_nil.mp huv.symm
      rw [h.1] at ha
      rw [h.2] at hb
      exact ⟨ha, hb⟩
  | alt a b iha ihb => simp [nullable, Matches, iha, ihb]
  | star a _ =>
    simp only [nullable, Matches, true_iff]
    exact ⟨[], rfl, by simp⟩

theorem star_cons_iff (a : Regex) (c : CodeUnit) (s : JSString) :
    (star a).Matches (c :: s) ↔
      ∃ u v, s = u ++ v ∧ a.Matches (c :: u) ∧ (star a).Matches v := by
  constructor
  · rintro ⟨L, hL, hall⟩
    induction L with
    | nil => simp at hL
    | cons w L ih =>
      cases w with
      | nil =>
        apply ih
        · simpa using hL
        · intro u hu
          exact hall u (List.mem_cons_of_mem _ hu)
      | cons d w =>
        simp only [List.flatten_cons, List.cons_append, List.cons.injEq] at hL
        obtain ⟨hd, hs⟩ := hL
        subst hd
        refine ⟨w, L.flatten, hs, hall _ (List.mem_cons_self _ _), L, rfl, ?_⟩
        intro u hu
        exact hall u (List.mem_cons_of_mem _ hu)
  · rintro ⟨u, v, hs, hu, L, hv, hall⟩
    refine ⟨(c :: u) :: L, ?_, ?_⟩
    · simp [hs, hv]
    · intro w hw
      rcases List.mem_cons.mp hw with h | h
      · rw [h]
        exact hu
      · exact hall w h

theorem deriv_iff (r : Regex) (c : CodeUnit) (s : JSString) :
    (r.deriv c).Matches s ↔ r.Matches (c :: s) := by
  induction r generalizing s with
  | never => simp [deriv, Matches]
  | eps => simp [deriv, Matches]
  | cls p =>
    simp only [deriv, Matches]
    by_cases hp : p c = true
    · simp only [hp, if_true, Matches]
      constructor
      · intro hs
        exact ⟨c, by rw [hs], hp⟩
      · rintro ⟨d, hd, _⟩
        simp only [List.cons.injEq] at hd
        exact hd.2
    · simp only [hp, Matches, false_iff]
      rintro ⟨d, hd, hpd⟩
      simp only [List.cons.injEq] at hd
      rw [← hd.1] at hpd
      exact hp hpd
  | seq a b iha ihb =>
    have key : (∃ u v, s = u ++ v ∧ (a.deriv c).Matches u ∧ b.Matches v) ∨
          (a.Matches [] ∧ (b.deriv c).Matches s) ↔
        ∃ u v, c :: s = u ++ v ∧ a.Matches u ∧ b.Matches v := by
      constructor
      · rintro (⟨u, v, hs, hu, hv⟩ | ⟨ha, hb⟩)
        · exact ⟨c :: u, v, by simp [hs], (iha u).mp hu, hv⟩
        · exact ⟨[], c :: s, rfl, ha, (ihb s).mp hb⟩
      · rintro ⟨u, v, hs, hu, hv⟩
        cases u with
        | nil =>
          simp only [List.nil_append] at hs
          rw [← hs] at hv
          exact Or.inr ⟨hu, (ihb s).mpr hv⟩
        | cons d u =>
          simp only [List.cons_append, List.cons.injEq] at hs
          obtain ⟨hd, hs⟩ := hs
          subst hd
          exact Or.inl ⟨u, v, hs, (iha u).mpr hu, hv⟩
    by_cases hn : a.nullable = true
    · simp only [deriv, hn, if_true, Matches]
      rw [← key]
      simp [(nullable_iff a).mp hn]
    · simp only [deriv, hn, Matches]
      rw [← key]
      have : ¬ a.Matches [] := fun h => hn ((nullable_iff a).mpr h)
      simp [this]
  | alt a b iha ihb => simp [deriv, Matches, iha, ihb]
  | star a iha =>
    rw [star_cons_iff]
    simp only [deriv, Matches, iha]

theorem test_iff (r : Regex) (s : JSString) : r.test s = true ↔ r.Matches s := by
  induction s generalizing r with
  | nil => simpa [test] using nullable_iff r
  | cons c s ih => rw [test, ih, deriv_iff]

end Regex

/-! ## The three validations as predicates -/

theorem Regex.matches_rep_cls (p : CodeUnit → Bool) (n : Nat) (s : JSString) :
    (Regex.rep n (.cls p)).Matches s ↔ s.length = n ∧ ∀ c ∈ s, p c = true := by
  induction n generalizing s with
  | zero =>
    simp only [Regex.rep, Regex.Matches]
    constructor
    · intro h
      simp [h]
    · intro h
      exact List.length_eq_zero.mp h.1
  | succ n ih =>
    simp only [Regex.rep, Regex.Matches, ih]
    constructor
    · rintro ⟨u, v, hs, ⟨c, hu, hc⟩, hlen, hall⟩
      subst hs hu
      refine ⟨by simp [hlen], ?_⟩
      intro d hd
      rcases List.mem_cons.mp hd with h | h
      · rw [h]
        exact hc
      · exact hall d h
    · rintro ⟨hlen, hall⟩
      cases s with
      | nil => simp at hlen
      | cons c t =>
        refine ⟨[c], t, rfl, ⟨c, rfl, hall c (List.mem_cons_self _ _)⟩, by simpa using hlen, ?_⟩
        intro d hd
        exact hall d (List.mem_cons_of_mem _ hd)

theorem Regex.matches_star_cls (p : CodeUnit → Bool) (s : JSString) :
    (Regex.star (.cls p)).Matches s ↔ ∀ c ∈ s, p c = true := by
  simp only [Regex.Matches]
  constructor
  · rintro ⟨L, hs, hall⟩ c hc
    subst hs
    obtain ⟨u, hu, hcu⟩ := List.mem_flatten.mp hc
    obtain ⟨d, hd, hpd⟩ := hall u hu
    subst hd
    rw [List.mem_singleton.mp hcu]
    exact hpd
  · intro hall
    refine ⟨s.map (fun c => [c]), ?_, ?_⟩
    · clear hall
      induction s with
      | nil => rfl
      | cons c t ih => simp [← ih]
    · intro u hu
      obtain ⟨c, hc, hcu⟩ := List.mem_map.mp hu
      exact ⟨c, hcu.symm, hall c hc⟩

theorem Regex.matches_plus_cls (p : CodeUnit → Bool) (s : JSString) :
    (Regex.plus (.cls p)).Matches s ↔ s ≠ [] ∧ ∀ c ∈ s, p c = true := by
  unfold Regex.plus
  simp only [Regex.Matches.eq_4, Regex.matches_star_cls]
  simp only [Regex.Matches]
  constructor
  · rintro ⟨u, v, hs, ⟨c, hu, hc⟩, hall⟩
    subst hs hu
    refine ⟨by simp, ?_⟩
    intro d hd
    rcases List.mem_cons.mp hd with h | h
    · rw [h]
      exact hc
    · exact hall d h
  · rintro ⟨hne, hall⟩
    cases s with
    | nil => exact absurd rfl hne
    | cons c t =>
      refine ⟨[c], t, rfl, ⟨c, rfl, hall c (List.mem_cons_self _ _)⟩, ?_⟩
      intro d hd
      exact hall d (List.mem_cons_of_mem _ hd)

theorem isDigit_iff (c : CodeUnit) : isDigit c = true ↔ 48 ≤ c ∧ c ≤ 57 := by
  simp [isDigit]

theorem sixToNine_range (c : Nat) :
    (54 ≤ c ∧ c ≤ 57) ↔ c = 54 ∨ c = 55 ∨ c = 56 ∨ c = 57 := by
  omega

theorem sixToNine_digit (c : Nat) (h : c = 54 ∨ c = 55 ∨ c = 56 ∨ c = 57) :
    48 ≤ c ∧ c ≤ 57 := by
  omega

theorem isSixToNine_iff (c : CodeUnit) :
    isSixToNine c = true ↔ c = 54 ∨ c = 55 ∨ c = 56 ∨ c = 57 := by
  simp only [isSixToNine, Bool.and_eq_true, decide_eq_true_eq]
  exact sixToNine_range c

theorem phoneRegex_test_iff (v : JSString) : phoneRegex.test v = true ↔ ValidPhone v := by
  rw [Regex.test_iff]
  unfold phoneRegex ValidPhone
  simp only [Regex.Matches.eq_4, Regex.matches_rep_cls, isDigit_iff]
  simp only [Regex.Matches, isSixToNine_iff]
  constructor
  · rintro ⟨u, w, hv, ⟨c, hu, hc⟩, hlen, hall⟩
    subst hv hu
    refine ⟨by simp [hlen], ?_, hc⟩
    intro d hd
    rcases List.mem_cons.mp hd with h | h
    · rw [h]
      exact sixToNine_digit c hc
    · exact hall d h
  · rintro ⟨hlen, hall, hfirst⟩
    cases v with
    | nil => simp at hlen
    | cons c t =>
      refine ⟨[c], t, rfl, ⟨c, rfl, hfirst⟩, by simpa using hlen, ?_⟩
      intro d hd
      exact hall d (List.mem_cons_of_mem _ hd)

theorem validateField_phone_eq (v : JSString) :
    validateField (utf16 "phone") v =
      if v = [] then utf16 "Phone is required"
      else if ValidPhone v then []
      else utf16 "Please enter a valid 10-digit phone number starting with 6, 7, 8, or 9" := by
  have hfind : formFields.find? (fun f => f.name == utf16 "phone") = formFields[2]? := rfl
  have hlabel : utf16 "Phone" ++ utf16 " is required" = utf16 "Phone is required" := by decide
  unfold validateField
  rw [hfind]
  cases v with
  | nil => simp [formFields, hlabel]
  | cons c t =>
    by_cases h : ValidPhone (c :: t)
    · simp [formFields, h, (phoneRegex_test_iff (c :: t)).mpr h]
    · have h' : phoneRegex.test (c :: t) = false := by
        rw [← Bool.not_eq_true, phoneRegex_test_iff]
        exact h
      simp [formFields, h, h']

/-! ## Phone: validation and sanitisation -/

theorem validateField_phone_nil_iff (v : JSString) :
    validateField (utf16 "phone") v = [] ↔ ValidPhone v := by
  rw [validateField_phone_eq]
  by_cases hv : v = []
  · subst hv
    simp only [if_true]
    constructor
    · intro h
      exact absurd h (by decide)
    · intro h
      exact absurd h.1 (by decide)
  · by_cases hp : ValidPhone v
    · simp [hv, hp]
    · simp only [hv, hp, if_false, iff_false]
      decide

/-- C3: `validateField("phone", v)` is empty exactly for the strings of ten ASCII
digits whose first digit is 6, 7, 8 or 9; it is "Phone is required" for the empty
string and the phone error message for every other string. -/
theorem validateField_phone_spec (v : JSString) :
    (validateField (utf16 "phone") v = [] ↔ ValidPhone v) ∧
    validateField (utf16 "phone") v =
      (if v = [] then utf16 "Phone is required"
       else if ValidPhone v then []
       else utf16 "Please enter a valid 10-digit phone number starting with 6, 7, 8, or 9") :=
  ⟨validateField_phone_nil_iff v, validateField_phone_eq v⟩

theorem sanitizeInput_phone (v : JSString) :
    sanitizeInput .phone v = (digitsOf v).take 10 := by
  have hd : removeAll (fun c => !isDigit c) v = digitsOf v := by
    unfold removeAll digitsOf
    congr 1
    funext c
    simp [isDigit]
  have hne : ¬ (FieldName.phone = FieldName.name) := by decide
  simp only [sanitizeInput, hd, slice0, hne, if_false, if_true]
  by_cases hlen : (digitsOf v).length > 10
  · rw [if_pos hlen]
  · rw [if_neg hlen, List.take_of_length_le (by omega)]

theorem digitsOf_digits (v : JSString) : ∀ c ∈ digitsOf v, 48 ≤ c ∧ c ≤ 57 := by
  intro c hc
  simpa using (List.mem_filter.mp hc).2

theorem digitsOf_of_digits (v : JSString) (h : ∀ c ∈ v, 48 ≤ c ∧ c ≤ 57) :
    digitsOf v = v := by
  unfold digitsOf
  rw [List.filter_eq_self]
  intro c hc
  simpa using h c hc

theorem startsWith_take (n : Nat) (v : JSString) (hn : 0 < n) :
    StartsWithSixToNine (v.take n) ↔ StartsWithSixToNine v := by
  cases v with
  | nil => simp
  | cons c t =>
    obtain ⟨m, rfl⟩ := Nat.exists_eq_succ_of_ne_zero (Nat.pos_iff_ne_zero.mp hn)
    simp [StartsWithSixToNine]

theorem handleChange_phone_stored {κ : Type} (g : JSString → List JSString) (v : JSString)
    (st : State κ) :
    (handleChange g .phone v st).formData.phone = (digitsOf v).take 10 := by
  rw [← sanitizeInput_phone]
  have hne : ¬ (FieldName.phone = FieldName.state) := by decide
  simp only [handleChange, hne, if_false, FormData.set]

theorem validPhone_take_digits (v : JSString) :
    ValidPhone ((digitsOf v).take 10) ↔
      10 ≤ (digitsOf v).length ∧ StartsWithSixToNine (digitsOf v) := by
  unfold ValidPhone
  rw [startsWith_take 10 (digitsOf v) (by decide), List.length_take]
  constructor
  · rintro ⟨hlen, _, hfirst⟩
    exact ⟨by omega, hfirst⟩
  · rintro ⟨hlen, hfirst⟩
    refine ⟨by omega, ?_, hfirst⟩
    intro c hc
    exact digitsOf_digits v c (List.mem_of_mem_take hc)

/-- C9: `handleChange` on the field "phone" stores exactly the first ten ASCII
digits of the input, in order; the stored value has only digits and length at
most ten; storing the stored value again changes nothing; and the stored value
passes phone validation exactly when the input has at least ten digits and its
first digit is 6, 7, 8 or 9. -/
theorem handleChange_phone_spec {κ : Type} (g : JSString → List JSString) (v : JSString)
    (st : State κ) :
    (handleChange g .phone v st).formData.phone = (digitsOf v).take 10 ∧
    (∀ c ∈ (handleChange g .phone v st).formData.phone, 48 ≤ c ∧ c ≤ 57) ∧
    (handleChange g .phone v st).formData.phone.length ≤ 10 ∧
    (handleChange g .phone (handleChange g .phone v st).formData.phone
        (handleChange g .phone v st)).formData.phone
      = (handleChange g .phone v st).formData.phone ∧
    (validateField (utf16 "phone") (handleChange g .phone v st).formData.phone = [] ↔
      10 ≤ (digitsOf v).length ∧ StartsWithSixToNine (digitsOf v)) := by
  have hdig : ∀ c ∈ (digitsOf v).take 10, 48 ≤ c ∧ c ≤ 57 := fun c hc =>
    digitsOf_digits v c (List.mem_of_mem_take hc)
  have hlen : ((digitsOf v).take 10).length ≤ 10 := by
    rw [List.length_take]
    omega
  rw [handleChange_phone_stored g _ (handleChange g .phone v st), handleChange_phone_stored]
  refine ⟨rfl, hdig, hlen, ?_, ?_⟩
  · rw [digitsOf_of_digits _ hdig, List.take_of_length_le hlen]
  · rw [validateField_phone_nil_iff, validPhone_take_digits]

/-! ## The dependent dropdown -/

/-- C5: `handleChange` on the field "state" with value `s` stores `s` as the
state, empties the city whatever it was, sets the city options to
`getCitiesForState(s)`, and leaves name, email, phone, coursesid and page as
they were. -/
theorem handleChange_state_spec {κ : Type} (getCitiesForState : JSString → List JSString)
    (s : JSString) (st : State κ) :
    (handleChange getCitiesForState .state s st).formData.state = s ∧
    (handleChange getCitiesForState .state s st).formData.city = [] ∧
    (handleChange getCitiesForState .state s st).cities = getCitiesForState s ∧
    (handleChange getCitiesForState .state s st).formData.name = st.formData.name ∧
    (handleChange getCitiesForState .state s st).formData.email = st.formData.email ∧
    (handleChange getCitiesForState .state s st).formData.phone = st.formData.phone ∧
    (handleChange getCitiesForState .state s st).formData.coursesid = st.formData.coursesid ∧
    (handleChange getCitiesForState .state s st).formData.page = st.formData.page := by
  have h1 : ¬ (FieldName.state = FieldName.name) := by decide
  have h2 : ¬ (FieldName.state = FieldName.phone) := by decide
  simp [handleChange, sanitizeInput, FormData.set, h1, h2]

/-! ## Name validation -/

theorem trim_length_le (v : JSString) : (trim v).length ≤ v.length := by
  unfold trim
  rw [List.length_reverse]
  calc ((v.dropWhile isWhiteSpace).reverse.dropWhile isWhiteSpace).length
      ≤ (v.dropWhile isWhiteSpace).reverse.length :=
        (List.dropWhile_sublist _).length_le
    _ = (v.dropWhile isWhiteSpace).length := List.length_reverse _
    _ ≤ v.length := (List.dropWhile_sublist _).length_le

/-- C4, as the code has it: for a non-empty name value `v`, `validateField("name", v)`
is empty when `v` with the white space at both ends trimmed is at least 2 code
units long and is the name error message when the trimmed `v` is shorter; in
particular it is the message whenever `v` itself is shorter than 2. -/
theorem validateField_name_spec (v : JSString) (hv : v ≠ []) :
    validateField (utf16 "name") v =
      (if 2 ≤ (trim v).length then []
       else utf16 "Name must be at least 2 characters long") ∧
    (v.length < 2 →
      validateField (utf16 "name") v = utf16 "Name must be at least 2 characters long") := by
  have hfind : formFields.find? (fun f => f.name == utf16 "name") = formFields[0]? := rfl
  have hmain : validateField (utf16 "name") v =
      (if 2 ≤ (trim v).length then []
       else utf16 "Name must be at least 2 characters long") := by
    unfold validateField
    rw [hfind]
    cases v with
    | nil => exact absurd rfl hv
    | cons c t =>
      by_cases h : 2 ≤ (trim (c :: t)).length
      · simp [formFields, h]
      · simp [formFields, h]
  refine ⟨hmain, ?_⟩
  intro hshort
  have := trim_length_le v
  rw [hmain, if_neg (by omega)]

/-- Witness for C4: the one-letter name "a". -/
theorem validateField_name_spec_witness :
    utf16 "a" ≠ [] ∧
    (validateField (utf16 "name") (utf16 "a") =
      (if 2 ≤ (trim (utf16 "a")).length then []
       else utf16 "Name must be at least 2 characters long") ∧
    ((utf16 "a").length < 2 →
      validateField (utf16 "name") (utf16 "a") =
        utf16 "Name must be at least 2 characters long")) :=
  ⟨by decide, validateField_name_spec (utf16 "a") (by decide)⟩

/-- C4 as stated fails: the name "a " (a letter and a space) is non-empty and 2
code units long, yet `validateField` returns the name error message for it. -/
theorem validateField_name_length_counterexample :
    utf16 "a " ≠ [] ∧ 2 ≤ (utf16 "a ").length ∧
    validateField (utf16 "name") (utf16 "a ") =
      utf16 "Name must be at least 2 characters long" ∧
    validateField (utf16 "name") (utf16 "a ") ≠ [] := by
  decide

/-! ## Email validation -/

theorem isNotSpaceNorAt_iff (c : CodeUnit) :
    isNotSpaceNorAt c = true ↔ isWhiteSpace c = false ∧ c ≠ atSign := by
  simp [isNotSpaceNorAt, atSign]

theorem emailRegex_matches_iff (v : JSString) :
    emailRegex.Matches v ↔
      ∃ a b c, v = a ++ atSign :: (b ++ dot :: c) ∧
        EmailPart a ∧ EmailPart b ∧ EmailPart c := by
  unfold emailRegex EmailPart
  simp only [Regex.Matches.eq_4, Regex.matches_plus_cls]
  simp only [Regex.chr, Regex.Matches]
  constructor
  · rintro ⟨a, r1, hv, ha, u1, r2, hr1, ⟨x, hu1, hx⟩, b, r3, hr2, hb, u2, c, hr3, ⟨y, hu2, hy⟩, hc⟩
    have hx' : x = atSign := by simpa using hx
    have hy' : y = dot := by simpa using hy
    subst hv hr1 hu1 hr2 hr3 hu2 hx' hy'
    exact ⟨a, b, c, by simp, ha, hb, hc⟩
  · rintro ⟨a, b, c, hv, ha, hb, hc⟩
    exact ⟨a, atSign :: (b ++ dot :: c), hv, ha, [atSign], b ++ dot :: c, rfl,
      ⟨atSign, rfl, by simp⟩, b, dot :: c, rfl, hb, [dot], c, rfl, ⟨dot, rfl, by simp⟩, hc⟩

theorem inner_dot_iff (d : JSString) :
    dot ∈ (d.drop 1).dropLast ↔ ∃ b c, d = b ++ dot :: c ∧ b ≠ [] ∧ c ≠ [] := by
  constructor
  · intro h
    cases d with
    | nil => simp at h
    | cons x t =>
      simp only [List.drop_succ_cons, List.drop_zero] at h
      have ht : t ≠ [] := by
        rintro rfl
        simp at h
      obtain ⟨p, q, hpq⟩ := List.append_of_mem h
      refine ⟨x :: p, q ++ [t.getLast ht], ?_, by simp, by simp⟩
      have := List.dropLast_append_getLast ht
      rw [hpq] at this
      generalize t.getLast ht = l at this
      rw [← this]
      simp
  · rintro ⟨b, c, hd, hb, hc⟩
    cases b with
    | nil => exact absurd rfl hb
    | cons x p =>
      rcases List.eq_nil_or_concat c with h | ⟨q, l, h⟩
      · exact absurd h hc
      · subst hd
        rw [h]
        simp only [List.cons_append, List.drop_succ_cons, List.drop_zero, List.concat_eq_append]
        have : p ++ dot :: (q ++ [l]) = (p ++ dot :: q) ++ [l] := by simp
        rw [this, List.dropLast_concat]
        simp

theorem emailShape_iff (v : JSString) :
    EmailShape v ↔
      ∃ a b c, v = a ++ atSign :: (b ++ dot :: c) ∧
        EmailPart a ∧ EmailPart b ∧ EmailPart c := by
  unfold EmailShape
  rw [inner_dot_iff]
  constructor
  · rintro ⟨hws, hcount, hbefore, b, c, hd, hb, hc⟩
    have hmem : atSign ∈ v := List.count_pos_iff.mp (by omega)
    have hdrop : v.dropWhile (fun c => c != atSign) ≠ [] := by
      intro h
      have := (List.dropWhile_eq_nil_iff.mp h) atSign hmem
      simp at this
    have hhead := List.head_dropWhile_not (fun c => c != atSign) v hdrop
    obtain ⟨x, t, hxt⟩ := List.exists_cons_of_ne_nil hdrop
    have hx : x = atSign := by
      simp only [hxt, List.head_cons] at hhead
      simpa using hhead
    subst hx
    have ht : afterAt v = t := by
      unfold afterAt
      rw [hxt]
      rfl
    have hsplit : v = beforeAt v ++ atSign :: t := by
      unfold beforeAt
      rw [← hxt, List.takeWhile_append_dropWhile]
    have hbefore_at : ∀ x ∈ beforeAt v, x ≠ atSign := by
      intro x hx
      have := List.mem_takeWhile_imp hx
      simpa using this
    have hcount' : List.count atSign t = 0 := by
      have h0 : List.count atSign (beforeAt v) = 0 :=
        List.count_eq_zero.mpr (fun h => hbefore_at atSign h rfl)
      rw [hsplit, List.count_append, List.count_cons_self, h0] at hcount
      omega
    have ht_at : ∀ x ∈ t, x ≠ atSign := by
      intro x hx hxa
      rw [hxa] at hx
      exact List.count_eq_zero.mp hcount' hx
    have hsub_before : ∀ x ∈ beforeAt v, x ∈ v := by
      intro x hx
      rw [hsplit]
      exact List.mem_append_left _ hx
    have hsub_t : ∀ x ∈ t, x ∈ v := by
      intro x hx
      rw [hsplit]
      exact List.mem_append_right _ (List.mem_cons_of_mem _ hx)
    rw [ht] at hd
    refine ⟨beforeAt v, b, c, ?_, ⟨hbefore, ?_⟩, ⟨hb, ?_⟩, ⟨hc, ?_⟩⟩
    · rw [← hd]
      exact hsplit
    · intro x hx
      exact (isNotSpaceNorAt_iff x).mpr ⟨hws x (hsub_before x hx), hbefore_at x hx⟩
    · intro x hx
      have hxt' : x ∈ t := by
        rw [hd]
        exact List.mem_append_left _ hx
      exact (isNotSpaceNorAt_iff x).mpr ⟨hws x (hsub_t x hxt'), ht_at x hxt'⟩
    · intro x hx
      have hxt' : x ∈ t := by
        rw [hd]
        exact List.mem_append_right _ (List.mem_cons_of_mem _ hx)
      exact (isNotSpaceNorAt_iff x).mpr ⟨hws x (hsub_t x hxt'), ht_at x hxt'⟩
  · rintro ⟨a, b, c, hv, ⟨ha, ha'⟩, ⟨hb, hb'⟩, ⟨hc, hc'⟩⟩
    have hpa : ∀ x ∈ a, (fun c => c != atSign) x = true := by
      intro x hx
      simpa using ((isNotSpaceNorAt_iff x).mp (ha' x hx)).2
    have hbefore : beforeAt v = a := by
      unfold beforeAt
      rw [hv, List.takeWhile_append_of_pos hpa]
      simp
    have hafter : afterAt v = b ++ dot :: c := by
      unfold afterAt
      rw [hv, List.dropWhile_append_of_pos hpa]
      simp
    have hna : ∀ u : JSString, (∀ x ∈ u, isNotSpaceNorAt x = true) →
        List.count atSign u = 0 := by
      intro u hu
      apply List.count_eq_zero.mpr
      intro h
      exact ((isNotSpaceNorAt_iff _).mp (hu _ h)).2 rfl
    refine ⟨?_, ?_, ?_, b, c, hafter, hb, hc⟩
    · intro x hx
      rw [hv] at hx
      simp only [List.mem_append, List.mem_cons] at hx
      rcases hx with h | h | h | h | h
      · exact ((isNotSpaceNorAt_iff x).mp (ha' x h)).1
      · rw [h]
        decide
      · exact ((isNotSpaceNorAt_iff x).mp (hb' x h)).1
      · rw [h]
        decide
      · exact ((isNotSpaceNorAt_iff x).mp (hc' x h)).1
    · have hdot : List.count atSign (dot :: c) = 0 := by
        rw [List.count_cons_of_ne (by decide), hna c hc']
      rw [hv, List.count_append, List.count_cons_self, List.count_append, hna a ha',
        hna b hb', hdot]
    · rw [hbefore]
      exact ha

theorem emailRegex_test_iff (v : JSString) : emailRegex.test v = true ↔ EmailShape v := by
  rw [Regex.test_iff, emailRegex_matches_iff, emailShape_iff]

/-- C10: for a non-empty `v`, `validateField("email", v)` is empty exactly when `v`
has no white space, exactly one `@`, at least one character before it, and after
it a `.` that is neither the first nor the last character of that part; for every
other non-empty `v` it is "Please enter a valid email address". -/
theorem validateField_email_spec (v : JSString) (hv : v ≠ []) :
    (validateField (utf16 "email") v = [] ↔ EmailShape v) ∧
    validateField (utf16 "email") v =
      (if EmailShape v then [] else utf16 "Please enter a valid email address") := by
  have hfind : formFields.find? (fun f => f.name == utf16 "email") = formFields[1]? := rfl
  have hmain : validateField (utf16 "email") v =
      (if EmailShape v then [] else utf16 "Please enter a valid email address") := by
    unfold validateField
    rw [hfind]
    cases v with
    | nil => exact absurd rfl hv
    | cons c t =>
      by_cases h : EmailShape (c :: t)
      · simp [formFields, h, (emailRegex_test_iff (c :: t)).mpr h]
      · have h' : emailRegex.test (c :: t) = false := by
          rw [← Bool.not_eq_true, emailRegex_test_iff]
          exact h
        simp [formFields, h, h']
  refine ⟨?_, hmain⟩
  rw [hmain]
  by_cases h : EmailShape v
  · simp [h]
  · simp only [h, if_false, iff_false]
    decide

/-- Witness for C10: the address "a@b.c". -/
theorem validateField_email_spec_witness :
    utf16 "a@b.c" ≠ [] ∧
    ((validateField (utf16 "email") (utf16 "a@b.c") = [] ↔ EmailShape (utf16 "a@b.c")) ∧
    validateField (utf16 "email") (utf16 "a@b.c") =
      (if EmailShape (utf16 "a@b.c") then []
       else utf16 "Please enter a valid email address")) :=
  ⟨by decide, validateField_email_spec (utf16 "a@b.c") (by decide)⟩

/-! ## Submitting -/

theorem collectErrors_eq {κ : Type} (d : FormData κ) :
    collectErrors d =
      entryOf (utf16 "name") (validateField (utf16 "name") d.name) ++
      entryOf (utf16 "email") (validateField (utf16 "email") d.email) ++
      entryOf (utf16 "phone") (validateField (utf16 "phone") d.phone) ++
      entryOf (utf16 "state") (validateField (utf16 "state") d.state) ++
      entryOf (utf16 "city") (validateField (utf16 "city") d.city) := by
  have h1 : d.prop (utf16 "name") = d.name := rfl
  have h2 : d.prop (utf16 "email") = d.email := rfl
  have h3 : d.prop (utf16 "phone") = d.phone := rfl
  have h4 : d.prop (utf16 "state") = d.state := rfl
  have h5 : d.prop (utf16 "city") = d.city := rfl
  simp only [collectErrors, formFields, List.foldl, h1, h2, h3, h4, h5]
  generalize validateField (utf16 "name") d.name = e1
  generalize validateField (utf16 "email") d.email = e2
  generalize validateField (utf16 "phone") d.phone = e3
  generalize validateField (utf16 "state") d.state = e4
  generalize validateField (utf16 "city") d.city = e5
  cases e1 <;> cases e2 <;> cases e3 <;> cases e4 <;> cases e5 <;> rfl

theorem collectErrors_of_valid {κ : Type} (d : FormData κ) (h : FormValid d) :
    collectErrors d = [] := by
  obtain ⟨h1, h2, h3, h4, h5⟩ := h
  rw [collectErrors_eq, h1, h2, h3, h4, h5]
  rfl

theorem collectErrors_of_invalid {κ : Type} (d : FormData κ) (h : ¬ FormValid d) :
    (collectErrors d).length > 0 := by
  rw [collectErrors_eq]
  unfold FormValid at h
  unfold entryOf
  simp only [List.length_append]
  by_cases h1 : validateField (utf16 "name") d.name = []
  · by_cases h2 : validateField (utf16 "email") d.email = []
    · by_cases h3 : validateField (utf16 "phone") d.phone = []
      · by_cases h4 : validateField (utf16 "state") d.state = []
        · by_cases h5 : validateField (utf16 "city") d.city = []
          · exact absurd ⟨h1, h2, h3, h4, h5⟩ h
          · simp [h5]
        · simp [h4]
      · simp [h3]
    · simp [h2]
  · simp [h1]

theorem objGet_entries (e1 e2 e3 e4 e5 : JSString) (k : FieldName) :
    objGet (entryOf (utf16 "name") e1 ++ entryOf (utf16 "email") e2 ++
        entryOf (utf16 "phone") e3 ++ entryOf (utf16 "state") e4 ++
        entryOf (utf16 "city") e5) k.key =
      failing (match k with
        | .name => e1 | .email => e2 | .phone => e3 | .state => e4 | .city => e5) := by
  cases k <;> cases e1 <;> cases e2 <;> cases e3 <;> cases e4 <;> cases e5 <;> rfl

/-- C1: when at least one of the five fields has a non-empty `validateField`
result, `handleSubmit` only prevents the default action and shows the error
toast (no CRM call, no POST), leaves the stored phone list and the form data as
they were, and sets `errors` to the object holding, for each failing field and
for no other key, that field's `validateField` message. -/
theorem handleSubmit_invalid {κ : Type} (props : Props κ) (remote : Remote κ) (st : State κ)
    (h : validateField (utf16 "name") st.formData.name ≠ [] ∨
      validateField (utf16 "email") st.formData.email ≠ [] ∨
      validateField (utf16 "phone") st.formData.phone ≠ [] ∨
      validateField (utf16 "state") st.formData.state ≠ [] ∨
      validateField (utf16 "city") st.formData.city ≠ []) :
    (handleSubmit props remote st).2 =
      [.preventDefault, .toastError (utf16 "Please fill in all required fields correctly.")] ∧
    (handleSubmit props remote st).2.filter isRemoteCall = [] ∧
    (handleSubmit props remote st).1.storage = st.storage ∧
    (handleSubmit props remote st).1.formData = st.formData ∧
    (handleSubmit props remote st).1.errors =
      entryOf (utf16 "name") (validateField (utf16 "name") st.formData.name) ++
      entryOf (utf16 "email") (validateField (utf16 "email") st.formData.email) ++
      entryOf (utf16 "phone") (validateField (utf16 "phone") st.formData.phone) ++
      entryOf (utf16 "state") (validateField (utf16 "state") st.formData.state) ++
      entryOf (utf16 "city") (validateField (utf16 "city") st.formData.city) ∧
    (∀ k : FieldName, objGet (handleSubmit props remote st).1.errors k.key =
      failing (validateField k.key (st.formData.prop k.key))) := by
  have hinv : ¬ FormValid st.formData := by
    rintro ⟨h1, h2, h3, h4, h5⟩
    rcases h with h | h | h | h | h
    · exact h h1
    · exact h h2
    · exact h h3
    · exact h h4
    · exact h h5
  have hlen := collectErrors_of_invalid st.formData hinv
  have hrun : handleSubmit props remote st =
      ({ st with errors := collectErrors st.formData },
        [.preventDefault,
          .toastError (utf16 "Please fill in all required fields correctly.")]) := by
    simp only [handleSubmit, hlen, if_true]
  rw [hrun]
  refine ⟨rfl, rfl, rfl, rfl, collectErrors_eq _, ?_⟩
  intro k
  show objGet (collectErrors st.formData) k.key = _
  rw [collectErrors_eq, objGet_entries]
  cases k <;> rfl

/-- Witness for C1: submitting the empty form. -/
theorem handleSubmit_invalid_witness :
    (validateField (utf16 "name") sampleStateEmpty.formData.name ≠ [] ∨
      validateField (utf16 "email") sampleStateEmpty.formData.email ≠ [] ∨
      validateField (utf16 "phone") sampleStateEmpty.formData.phone ≠ [] ∨
      validateField (utf16 "state") sampleStateEmpty.formData.state ≠ [] ∨
      validateField (utf16 "city") sampleStateEmpty.formData.city ≠ []) ∧
    (handleSubmit sampleProps sampleRemote sampleStateEmpty).2.filter isRemoteCall = [] ∧
    (handleSubmit sampleProps sampleRemote sampleStateEmpty).1.errors =
      [(utf16 "name", utf16 "Name is required"), (utf16 "email", utf16 "Email is required"),
        (utf16 "phone", utf16 "Phone is required"), (utf16 "state", utf16 "State is required"),
        (utf16 "city", utf16 "City is required")] :=
  ⟨by decide,
    (handleSubmit_invalid sampleProps sampleRemote sampleStateEmpty (by decide)).2.1,
    by decide⟩

theorem contains_iff_mem (l : List JSString) (p : JSString) :
    l.contains p = true ↔ p ∈ l := by
  simp

/-- C2: when all five fields pass validation and the phone is already in the
stored list, `handleSubmit` only prevents the default action and shows the
warning toast: no CRM call, no POST, and the whole state (stored list, form data,
`isSubmitting` included) is as before. -/
theorem handleSubmit_duplicate {κ : Type} (props : Props κ) (remote : Remote κ)
    (st : State κ) (hvalid : FormValid st.formData)
    (hdup : st.formData.phone ∈ readSubmitted st) :
    (handleSubmit props remote st).2 =
      [.preventDefault, .toastWarning (utf16
        "This phone number has already been used to submit a query during this session.")] ∧
    (handleSubmit props remote st).2.filter isRemoteCall = [] ∧
    (handleSubmit props remote st).1.storage = st.storage ∧
    (handleSubmit props remote st).1.formData = st.formData ∧
    (handleSubmit props remote st).1.isSubmitting = st.isSubmitting ∧
    (handleSubmit props remote st).1 = st := by
  have hrun : handleSubmit props remote st =
      (st, [.preventDefault, .toastWarning (utf16
        "This phone number has already been used to submit a query during this session.")]) := by
    have hc : (readSubmitted st).contains st.formData.phone = true :=
      (contains_iff_mem _ _).mpr hdup
    simp only [handleSubmit, collectErrors_of_valid _ hvalid, hc, if_true]
    rfl
  rw [hrun]
  exact ⟨rfl, rfl, rfl, rfl, rfl, rfl⟩

/-- Witness for C2: submitting again after the phone has been stored. -/
theorem handleSubmit_duplicate_witness :
    FormValid sampleStateSubmitted.formData ∧
    sampleStateSubmitted.formData.phone ∈ readSubmitted sampleStateSubmitted ∧
    (handleSubmit sampleProps sampleRemote sampleStateSubmitted).2.filter isRemoteCall = [] ∧
    (handleSubmit sampleProps sampleRemote sampleStateSubmitted).1 = sampleStateSubmitted :=
  ⟨by decide, by decide,
    (handleSubmit_duplicate sampleProps sampleRemote sampleStateSubmitted
      (by decide) (by decide)).2.1,
    (handleSubmit_duplicate sampleProps sampleRemote sampleStateSubmitted
      (by decide) (by decide)).2.2.2.2.2⟩

/-! ### A valid submission with a phone not yet stored -/

theorem run_crm_throws {κ : Type} (props : Props κ) (remote : Remote κ) (st : State κ)
    (hvalid : FormValid st.formData) (hnew : st.formData.phone ∉ readSubmitted st)
    (hcrm : remote.submitAdmissionQuery (sanitizedFormData props st.formData)
      props.utmParams = .throws) :
    handleSubmit props remote st =
      ({ st with isSubmitting := false },
        [.preventDefault,
          .submitAdmissionQuery (sanitizedFormData props st.formData) props.utmParams,
          .toastError (utf16 "An unexpected error occurred. Please try again."),
          .consoleError]) := by
  have hc : (readSubmitted st).contains st.formData.phone = false := by
    rw [← Bool.not_eq_true, contains_iff_mem]
    exact hnew
  simp only [handleSubmit, collectErrors_of_valid _ hvalid, hc, hcrm, caught]
  rfl

theorem run_sheet_throws {κ : Type} (props : Props κ) (remote : Remote κ) (st : State κ)
    (hvalid : FormValid st.formData) (hnew : st.formData.phone ∉ readSubmitted st)
    (crm : Bool)
    (hcrm : remote.submitAdmissionQuery (sanitizedFormData props st.formData)
      props.utmParams = .returns crm)
    (hsheet : remote.fetch props.endpoint (sheetBody props st.formData) = .throws) :
    handleSubmit props remote st =
      ({ st with isSubmitting := false },
        [.preventDefault,
          .submitAdmissionQuery (sanitizedFormData props st.formData) props.utmParams,
          .fetchPost props.endpoint (sheetBody props st.formData),
          .toastError (utf16 "An unexpected error occurred. Please try again."),
          .consoleError]) := by
  have hc : (readSubmitted st).contains st.formData.phone = false := by
    rw [← Bool.not_eq_true, contains_iff_mem]
    exact hnew
  simp only [handleSubmit, collectErrors_of_valid _ hvalid, hc, hcrm, hsheet, caught]
  rfl

theorem run_returns {κ : Type} (props : Props κ) (remote : Remote κ) (st : State κ)
    (hvalid : FormValid st.formData) (hnew : st.formData.phone ∉ readSubmitted st)
    (crm sheets dup : Bool)
    (hcrm : remote.submitAdmissionQuery (sanitizedFormData props st.formData)
      props.utmParams = .returns crm)
    (hsheet : remote.fetch props.endpoint (sheetBody props st.formData) =
      .returns sheets dup) :
    handleSubmit props remote st =
      (if crm || sheets then
        ({ st with
            formData := initialFormData props, errors := [], isSubmitting := false,
            storage := some (readSubmitted st ++ [st.formData.phone]) },
          [.preventDefault,
            .submitAdmissionQuery (sanitizedFormData props st.formData) props.utmParams,
            .fetchPost props.endpoint (sheetBody props st.formData),
            .toastSuccess (utf16 "Form submitted successfully!"),
            if props.onSuccess then .onSuccess else .redirect (utf16 "/thankyou.html")])
      else if dup then
        ({ st with
            isSubmitting := false,
            storage := some (readSubmitted st ++ [st.formData.phone]) },
          [.preventDefault,
            .submitAdmissionQuery (sanitizedFormData props st.formData) props.utmParams,
            .fetchPost props.endpoint (sheetBody props st.formData),
            .toastError (utf16
              "This phone number has already been used to submit an inquiry.")])
      else
        ({ st with isSubmitting := false },
          [.preventDefault,
            .submitAdmissionQuery (sanitizedFormData props st.formData) props.utmParams,
            .fetchPost props.endpoint (sheetBody props st.formData),
            .toastError (utf16 "Failed to submit form. Please try again.")])) := by
  have hc : (readSubmitted st).contains st.formData.phone = false := by
    rw [← Bool.not_eq_true, contains_iff_mem]
    exact hnew
  have hro : readSubmitted { st with isSubmitting := true } = readSubmitted st := rfl
  simp only [handleSubmit, collectErrors_of_valid _ hvalid, hc, hcrm, hsheet, rememberPhone,
    hro]
  cases crm <;> cases sheets <;> cases dup <;> rfl

theorem remoteCalls_eq {κ : Type} (props : Props κ) (remote : Remote κ) (st : State κ)
    (hvalid : FormValid st.formData) (hnew : st.formData.phone ∉ readSubmitted st) :
    (handleSubmit props remote st).2.filter isRemoteCall =
      (match remote.submitAdmissionQuery (sanitizedFormData props st.formData)
          props.utmParams with
        | .throws =>
          [.submitAdmissionQuery (sanitizedFormData props st.formData) props.utmParams]
        | .returns _ =>
          [.submitAdmissionQuery (sanitizedFormData props st.formData) props.utmParams,
            .fetchPost props.endpoint (sheetBody props st.formData)]) := by
  cases hcrm : remote.submitAdmissionQuery (sanitizedFormData props st.formData)
      props.utmParams with
  | throws =>
    rw [run_crm_throws props remote st hvalid hnew hcrm]
    rfl
  | returns crm =>
    cases hsheet : remote.fetch props.endpoint (sheetBody props st.formData) with
    | throws =>
      rw [run_sheet_throws props remote st hvalid hnew crm hcrm hsheet]
      rfl
    | returns sheets dup =>
      rw [run_returns props remote st hvalid hnew crm sheets dup hcrm hsheet]
      cases crm <;> cases sheets <;> cases dup <;> cases props.onSuccess <;> rfl

/-- C6: on a valid submission whose phone is not yet stored, the remote calls
made by `handleSubmit` are, in this order, one CRM call and then (only if the
CRM call returned rather than threw) one POST to the sheet endpoint; both carry
the same record, which is the form data with every white-space code unit
removed from `city` and with `page` set to `pageName` unless `pageName` is "mca". -/
theorem handleSubmit_calls {κ : Type} (props : Props κ) (remote : Remote κ) (st : State κ)
    (hvalid : FormValid st.formData) (hnew : st.formData.phone ∉ readSubmitted st) :
    (handleSubmit props remote st).2.filter isRemoteCall =
      (match remote.submitAdmissionQuery (sanitizedFormData props st.formData)
          props.utmParams with
        | .throws =>
          [.submitAdmissionQuery (sanitizedFormData props st.formData) props.utmParams]
        | .returns _ =>
          [.submitAdmissionQuery (sanitizedFormData props st.formData) props.utmParams,
            .fetchPost props.endpoint (sheetBody props st.formData)]) ∧
    (sheetBody props st.formData).record = sanitizedFormData props st.formData ∧
    (sanitizedFormData props st.formData).name = st.formData.name ∧
    (sanitizedFormData props st.formData).email = st.formData.email ∧
    (sanitizedFormData props st.formData).phone = st.formData.phone ∧
    (sanitizedFormData props st.formData).coursesid = st.formData.coursesid ∧
    (sanitizedFormData props st.formData).state = st.formData.state ∧
    (sanitizedFormData props st.formData).city =
      st.formData.city.filter (fun c => !isWhiteSpace c) ∧
    (∀ c ∈ (sanitizedFormData props st.formData).city, isWhiteSpace c = false) ∧
    (sanitizedFormData props st.formData).page =
      (if props.pageName = utf16 "mca" then st.formData.page else some props.pageName) := by
  refine ⟨remoteCalls_eq props remote st hvalid hnew, rfl, rfl, rfl, rfl, rfl, rfl, rfl, ?_, ?_⟩
  · intro c hc
    have := (List.mem_filter.mp hc).2
    simpa using this
  · by_cases hp : props.pageName = utf16 "mca"
    · simp [sanitizedFormData, hp]
    · simp [sanitizedFormData, hp]

/-- Witness for C6: a first submission of the sample form, both calls succeeding. -/
theorem handleSubmit_calls_witness :
    FormValid sampleState.formData ∧ sampleState.formData.phone ∉ readSubmitted sampleState ∧
    (handleSubmit sampleProps sampleRemote sampleState).2.filter isRemoteCall =
      (match sampleRemote.submitAdmissionQuery
          (sanitizedFormData sampleProps sampleState.formData) sampleProps.utmParams with
        | .throws =>
          [.submitAdmissionQuery (sanitizedFormData sampleProps sampleState.formData)
            sampleProps.utmParams]
        | .returns _ =>
          [.submitAdmissionQuery (sanitizedFormData sampleProps sampleState.formData)
              sampleProps.utmParams,
            .fetchPost sampleProps.endpoint (sheetBody sampleProps sampleState.formData)]) ∧
    (sanitizedFormData sampleProps sampleState.formData).city = utf16 "VascodaGama" :=
  ⟨by decide, by decide,
    (handleSubmit_calls sampleProps sampleRemote sampleState (by decide) (by decide)).1,
    by decide⟩

theorem handleSubmit_attempts {κ : Type} (props : Props κ) (remote : Remote κ) (st : State κ)
    (hvalid : FormValid st.formData) (hnew : st.formData.phone ∉ readSubmitted st) :
    Effect.submitAdmissionQuery (sanitizedFormData props st.formData) props.utmParams ∈
      (handleSubmit props remote st).2 := by
  have h := remoteCalls_eq props remote st hvalid hnew
  have hmem : Effect.submitAdmissionQuery (sanitizedFormData props st.formData)
      props.utmParams ∈ (handleSubmit props remote st).2.filter isRemoteCall := by
    rw [h]
    cases remote.submitAdmissionQuery (sanitizedFormData props st.formData) props.utmParams
      <;> simp
  exact (List.mem_filter.mp hmem).1

/-! ### The stored phone list -/

theorem storage_after {κ : Type} (props : Props κ) (remote : Remote κ) (st : State κ)
    (hvalid : FormValid st.formData) (hnew : st.formData.phone ∉ readSubmitted st) :
    if phoneRecorded props remote st.formData = true then
      (handleSubmit props remote st).1.storage =
        some (readSubmitted st ++ [st.formData.phone])
    else
      (handleSubmit props remote st).1.storage = st.storage ∧
      (handleSubmit props remote st).1.formData = st.formData := by
  unfold phoneRecorded
  cases hcrm : remote.submitAdmissionQuery (sanitizedFormData props st.formData)
      props.utmParams with
  | throws =>
    rw [run_crm_throws props remote st hvalid hnew hcrm]
    exact ⟨rfl, rfl⟩
  | returns crm =>
    cases hsheet : remote.fetch props.endpoint (sheetBody props st.formData) with
    | throws =>
      rw [run_sheet_throws props remote st hvalid hnew crm hcrm hsheet]
      exact ⟨rfl, rfl⟩
    | returns sheets dup =>
      rw [run_returns props remote st hvalid hnew crm sheets dup hcrm hsheet]
      cases crm <;> cases sheets <;> cases dup <;> first | rfl | exact ⟨rfl, rfl⟩

/-- C7: on a valid submission with stored list `L` and a phone `p` not in `L`,
the stored list afterwards is `L` with `p` appended once if both remote calls
returned and one of `crmResult.success`, `sheetsData.success`,
`sheetsData.isDuplicate` is truthy, and otherwise (a throwing call included) the
storage and the form data are untouched, `p` is still absent from the list, and
a further `handleSubmit` calls the CRM again whatever the remote side then
answers; a stored list without repeats stays without repeats. -/
theorem handleSubmit_storage {κ : Type} (props : Props κ) (remote : Remote κ) (st : State κ)
    (hvalid : FormValid st.formData) (hnew : st.formData.phone ∉ readSubmitted st) :
    readSubmitted (handleSubmit props remote st).1 =
      (if phoneRecorded props remote st.formData = true
        then readSubmitted st ++ [st.formData.phone] else readSubmitted st) ∧
    (readSubmitted st ++ [st.formData.phone]).count st.formData.phone = 1 ∧
    (if phoneRecorded props remote st.formData = true then
      (handleSubmit props remote st).1.storage =
        some (readSubmitted st ++ [st.formData.phone])
    else
      (handleSubmit props remote st).1.storage = st.storage ∧
      (handleSubmit props remote st).1.formData = st.formData ∧
      st.formData.phone ∉ readSubmitted (handleSubmit props remote st).1 ∧
      ∀ again : Remote κ,
        Effect.submitAdmissionQuery (sanitizedFormData props st.formData) props.utmParams ∈
          (handleSubmit props again (handleSubmit props remote st).1).2) ∧
    ((readSubmitted st).Nodup → (readSubmitted (handleSubmit props remote st).1).Nodup) := by
  have hs := storage_after props remote st hvalid hnew
  have hcount : (readSubmitted st ++ [st.formData.phone]).count st.formData.phone = 1 := by
    rw [List.count_append, List.count_eq_zero.mpr hnew]
    simp
  by_cases hrec : phoneRecorded props remote st.formData = true
  · rw [if_pos hrec] at hs
    have hread : readSubmitted (handleSubmit props remote st).1 =
        readSubmitted st ++ [st.formData.phone] := by
      unfold readSubmitted at *
      rw [hs]
      rfl
    simp only [hrec, if_true]
    refine ⟨hread, hcount, hs, ?_⟩
    intro hnd
    rw [hread]
    apply List.Nodup.append hnd (List.nodup_singleton _)
    intro x hx hx'
    rw [List.mem_singleton.mp hx'] at hx
    exact hnew hx
  · rw [if_neg hrec] at hs
    obtain ⟨hst, hfd⟩ := hs
    have hread : readSubmitted (handleSubmit props remote st).1 = readSubmitted st := by
      unfold readSubmitted
      rw [hst]
    simp only [hrec]
    refine ⟨hread, hcount, ⟨hst, hfd, ?_, ?_⟩, ?_⟩
    · rw [hread]
      exact hnew
    · intro again
      have := handleSubmit_attempts props again (handleSubmit props remote st).1
        (by rw [hfd]; exact hvalid) (by rw [hfd, hread]; exact hnew)
      rw [hfd] at this
      exact this
    · intro hnd
      rw [hread]
      exact hnd

/-- Witness for C7: a first submission of the sample form, both calls succeeding. -/
theorem handleSubmit_storage_witness :
    FormValid sampleState.formData ∧ sampleState.formData.phone ∉ readSubmitted sampleState ∧
    readSubmitted (handleSubmit sampleProps sampleRemote sampleState).1 =
      (if phoneRecorded sampleProps sampleRemote sampleState.formData = true
        then readSubmitted sampleState ++ [sampleState.formData.phone]
        else readSubmitted sampleState) ∧
    readSubmitted (handleSubmit sampleProps sampleRemote sampleState).1 =
      [utf16 "9000000001", utf16 "9876543210"] ∧
    readSubmitted (handleSubmit sampleProps sampleRemoteDown sampleState).1 =
      [utf16 "9000000001"] :=
  ⟨by decide, by decide,
    (handleSubmit_storage sampleProps sampleRemote sampleState (by decide) (by decide)).1,
    by decide, by decide⟩

/-! ### Resetting the form -/

theorem valid_ne_initial {κ : Type} (props : Props κ) (d : FormData κ) (hvalid : FormValid d) :
    d ≠ initialFormData props := by
  intro h
  have hname : d.name = [] := by rw [h]; rfl
  have := hvalid.1
  rw [hname] at this
  exact absurd this (by decide)

/-- C8: on a valid submission whose phone is not yet stored, `isSubmitting` is
false when `handleSubmit` has finished, whether the remote calls returned or
threw; and when both returned, the form data is reset to the initial record
(name, email, phone, state and city empty, `coursesid` the `courseId` prop) and
the errors are emptied if `crmResult.success` or `sheetsData.success` is truthy,
while otherwise form data and errors are exactly as before; so the form data is
the initial record afterwards exactly in the success case. -/
theorem handleSubmit_reset {κ : Type} (props : Props κ) (remote : Remote κ) (st : State κ)
    (hvalid : FormValid st.formData) (hnew : st.formData.phone ∉ readSubmitted st) :
    (handleSubmit props remote st).1.isSubmitting = false ∧
    (match remote.submitAdmissionQuery (sanitizedFormData props st.formData) props.utmParams,
        remote.fetch props.endpoint (sheetBody props st.formData) with
      | .returns crmSuccess, .returns sheetsSuccess _ =>
        (if (crmSuccess || sheetsSuccess) = true then
          (handleSubmit props remote st).1.formData = initialFormData props ∧
          (handleSubmit props remote st).1.errors = []
        else
          (handleSubmit props remote st).1.formData = st.formData ∧
          (handleSubmit props remote st).1.errors = st.errors) ∧
        ((handleSubmit props remote st).1.formData = initialFormData props ↔
          (crmSuccess || sheetsSuccess) = true)
      | _, _ => True) ∧
    (initialFormData props).name = [] ∧ (initialFormData props).email = [] ∧
    (initialFormData props).phone = [] ∧ (initialFormData props).state = [] ∧
    (initialFormData props).city = [] ∧ (initialFormData props).coursesid = props.courseId := by
  have hne := valid_ne_initial props st.formData hvalid
  refine ⟨?_, ?_, rfl, rfl, rfl, rfl, rfl, rfl⟩
  · cases hcrm : remote.submitAdmissionQuery (sanitizedFormData props st.formData)
        props.utmParams with
    | throws =>
      rw [run_crm_throws props remote st hvalid hnew hcrm]
    | returns crm =>
      cases hsheet : remote.fetch props.endpoint (sheetBody props st.formData) with
      | throws =>
        rw [run_sheet_throws props remote st hvalid hnew crm hcrm hsheet]
      | returns sheets dup =>
        rw [run_returns props remote st hvalid hnew crm sheets dup hcrm hsheet]
        cases crm <;> cases sheets <;> cases dup <;> rfl
  · cases hcrm : remote.submitAdmissionQuery (sanitizedFormData props st.formData)
        props.utmParams with
    | throws => trivial
    | returns crm =>
      cases hsheet : remote.fetch props.endpoint (sheetBody props st.formData) with
      | throws => trivial
      | returns sheets dup =>
        simp only []
        rw [run_returns props remote st hvalid hnew crm sheets dup hcrm hsheet]
        cases crm <;> cases sheets <;> cases dup <;> simp [hne]

/-- Witness for C8: a first submission of the sample form, both calls succeeding. -/
theorem handleSubmit_reset_witness :
    FormValid sampleState.formData ∧ sampleState.formData.phone ∉ readSubmitted sampleState ∧
    (handleSubmit sampleProps sampleRemote sampleState).1.isSubmitting = false ∧
    (handleSubmit sampleProps sampleRemote sampleState).1.formData =
      initialFormData sampleProps ∧
    (handleSubmit sampleProps sampleRemoteDown sampleState).1.formData = sampleForm :=
  ⟨by decide, by decide,
    (handleSubmit_reset sampleProps sampleRemote sampleState (by decide) (by decide)).1,
    by decide, by decide⟩

end AdmissionForm
